import Mathlib

/-!
Verification of the Depthflow-WebGL core against its natural-language
specification.

The development shallowly embeds, over exact rational arithmetic:
  * the single-layer fragment shader `src/src/shaders/fragment.glsl`
    (triangleWave, mirroredRepeat, sampleTexture, computeParallax, main);
  * the two-layer fragment shader
    `src/two-layer-depth-demo/src/shaders/fragment.glsl`
    (rayMarch, rayMarchBackground, the compositing main);
  * the CPU depth processor
    `src/two-layer-depth-demo/src/js/depth-processor.js`
    (createForegroundMask, dilateMask, inpaintBackground via
    buildPyramid / reconstructFromPyramid / smoothMaskedRegions);
  * the renderer's depth edge fix `src/src/js/renderer.js` (applyEdgeFix).

GLSL floats are modelled as rationals (ℚ); textures are modelled as pure
functions from sample coordinates to channel values, so a texture lookup is
function application.  GLSL `for` loops with fixed trip counts become
structurally recursive functions on a fuel argument equal to the source's
iteration cap.  The GLSL primitives that are genuinely irrational
(`normalize`, `acos`, used only to produce the opaque steepness score of the
two-layer shader) are passed in as function parameters, so every statement
quantifies over them.
-/

attribute [local semireducible] Rat.add Rat.sub Rat.mul Rat.inv Rat.ofScientific

/-- GLSL `mix(x, y, a) = x*(1-a) + y*a` (also the spec's `lerp`). -/
def glslMix (x y a : ℚ) : ℚ := x * (1 - a) + y * a

/-- GLSL `clamp(x, lo, hi) = min(max(x, lo), hi)`. -/
def glslClamp (x lo hi : ℚ) : ℚ := min (max x lo) hi

/-- GLSL `mod(a, b) = a - b * floor(a/b)`. -/
def glslMod (a b : ℚ) : ℚ := a - b * ((⌊a / b⌋ : ℤ) : ℚ)

/-- GLSL `smoothstep(e0, e1, x)`: Hermite interpolation of the clamped
normalized position. -/
def glslSmoothstep (e0 e1 x : ℚ) : ℚ :=
  let t := glslClamp ((x - e0) / (e1 - e0)) 0 1
  t * t * (3 - 2 * t)

/-- A 3-component vector of rationals (GLSL `vec3`). -/
structure V3 where
  x : ℚ
  y : ℚ
  z : ℚ
deriving DecidableEq

/-- Componentwise GLSL `mix` on `vec3`. -/
def glslMix3 (a b : V3) (t : ℚ) : V3 :=
  ⟨glslMix a.x b.x t, glslMix a.y b.y t, glslMix a.z b.z t⟩

/-- An RGBA color sample (GLSL `vec4`). -/
structure V4 where
  r : ℚ
  g : ℚ
  b : ℚ
  a : ℚ
deriving DecidableEq

/-- Componentwise GLSL `mix` on `vec4`. -/
def glslMix4 (u v : V4) (t : ℚ) : V4 :=
  ⟨glslMix u.r v.r t, glslMix u.g v.g t, glslMix u.b v.b t, glslMix u.a v.a t⟩

/-- Fragment shader, `triangleWave`: oscillates between -1 and 1
(`2.0 * abs(mod(2.0 * x / period - 0.5, 2.0) - 1.0) - 1.0`). -/
def triangleWave (x period : ℚ) : ℚ :=
  2 * |glslMod (2 * x / period - 0.5) 2 - 1| - 1

/-- Fragment shader, `mirroredRepeat`: GL_MIRRORED_REPEAT applied to gluv
coordinates, x-period `4*aspect`, y-period `4`. -/
def mirroredRepeat (gluv : ℚ × ℚ) (aspect : ℚ) : ℚ × ℚ :=
  (aspect * triangleWave gluv.1 (4 * aspect), triangleWave gluv.2 4)

/-- Single-layer shader, gluv-to-stuv conversion inside `sampleTexture`:
`stuv = (gluv * vec2(1/aspect, 1) + 1) / 2`, after optional mirroring. -/
def stuvOfSL (gluv : ℚ × ℚ) (mirror : Bool) (aspect : ℚ) : ℚ × ℚ :=
  let g := if mirror then mirroredRepeat gluv aspect else gluv
  ((g.1 * (1 / aspect) + 1) / 2, (g.2 * 1 + 1) / 2)

/-- Single-layer shader, `sampleTexture`: mirrors (when enabled), converts to
stuv, and looks the texture up.  The texture is an abstract pure function of
the stuv coordinate; `α` is `V4` for color textures and ℚ for the red channel
of the depth texture. -/
def sampleTexture {α : Type} (tex : ℚ → ℚ → α) (gluv : ℚ × ℚ)
    (mirror : Bool) (aspect : ℚ) : α :=
  let s := stuvOfSL gluv mirror aspect
  tex s.1 s.2

/-- Camera parameters of the single-layer shader (its `uniform` block:
uHeight, uSteady, uFocus, uZoom, uIsometric, uDolly, uInvert, uMirror,
uQuality, uOffset, uCenter, uOrigin, uImageAspect). -/
structure SLParams where
  height : ℚ
  steady : ℚ
  focus : ℚ
  zoom : ℚ
  isometric : ℚ
  dolly : ℚ
  invert : ℚ
  mirror : Bool
  quality : ℚ
  offset : ℚ × ℚ
  center : ℚ × ℚ
  origin : ℚ × ℚ
  aspect : ℚ
deriving DecidableEq

/-- Coarse forward step size: `1.0 / mix(50.0, 120.0, uQuality)`. -/
def probeStepOf (quality : ℚ) : ℚ := 1 / glslMix 50 120 quality

/-- Fine backward step size: `1.0 / mix(200.0, 2000.0, uQuality)`. -/
def fineStepOf (quality : ℚ) : ℚ := 1 / glslMix 200 2000 quality

/-- Ray origin of `computeParallax`:
`camPos + vec3(screen*zoom*isometric, 0) + vec3(0,0,-dolly) + vec3(origin,0)`
with `camPos = vec3(offset + center, 0)`. -/
def rayOriginOf (p : SLParams) (screen : ℚ × ℚ) : V3 :=
  let cameraXY := (p.offset.1 + p.center.1, p.offset.2 + p.center.2)
  ⟨cameraXY.1 + screen.1 * p.zoom * p.isometric + p.origin.1,
   cameraXY.2 + screen.2 * p.zoom * p.isometric + p.origin.2,
   0 + 0 - p.dolly + 0⟩

/-- Intersection point of `computeParallax`:
`intersect = vec3(center + screen, 1)`, then
`intersect -= vec3(cameraXY, 0) * (1/(1 - relSteady))` when
`abs(1 - relSteady) > 0.001`, with `relSteady = steady * height`. -/
def intersectOf (p : SLParams) (screen : ℚ × ℚ) : V3 :=
  let relSteady := p.steady * p.height
  let cameraXY := (p.offset.1 + p.center.1, p.offset.2 + p.center.2)
  let base : V3 := ⟨p.center.1 + screen.1, p.center.2 + screen.2, 1⟩
  if 0.001 < |1 - relSteady| then
    ⟨base.x - cameraXY.1 * (1 / (1 - relSteady)),
     base.y - cameraXY.2 * (1 / (1 - relSteady)), base.z - 0⟩
  else base

/-- Context shared by both march passes of `computeParallax`: the ray, step
sizes, the safe start, and everything depth sampling needs. -/
structure MarchCtx where
  rayOrigin : V3
  intersect : V3
  probe : ℚ
  fine : ℚ
  safe : ℚ
  height : ℚ
  invert : ℚ
  mirror : Bool
  aspect : ℚ
  dtex : ℚ → ℚ → ℚ

/-- Mutable state of `computeParallax`'s march loop: `walk`, `hitGluv`,
`hitDepth`, `lastDepth`. -/
structure MarchState where
  walk : ℚ
  hitGluv : ℚ × ℚ
  hitDepth : ℚ
  lastDepth : ℚ
deriving DecidableEq

/-- One evaluation of the marched ray at parameter `walk`:
`point = mix(rayOrigin, intersect, mix(safe, 1, walk))`, the depth sample at
`point.xy`, `surface = height * mix(depth, 1-depth, invert)` and
`ceiling = 1 - point.z`. -/
structure ProbeEval where
  hitGluv : ℚ × ℚ
  hitDepth : ℚ
  surface : ℚ
  ceiling : ℚ

/-- Evaluate the single-layer ray at a given `walk` value (the shared body of
both loops of `computeParallax`). -/
def marchEval (ctx : MarchCtx) (walk : ℚ) : ProbeEval :=
  let point := glslMix3 ctx.rayOrigin ctx.intersect (glslMix ctx.safe 1 walk)
  let g := (point.x, point.y)
  let d := sampleTexture ctx.dtex g ctx.mirror ctx.aspect
  { hitGluv := g
    hitDepth := d
    surface := ctx.height * glslMix d (1 - d) ctx.invert
    ceiling := 1 - point.z }

/-- Pass 1 of `computeParallax` (coarse forward march), fuelled by the
source's hard iteration cap.  Each loop iteration first breaks when
`walk > 1`, then advances `walk` by `probe`, samples, and breaks on overshoot
(`ceiling < surface`).  Returns the final state together with the number of
loop bodies actually executed. -/
def pass1 (ctx : MarchCtx) : ℕ → MarchState → MarchState × ℕ
  | 0, s => (s, 0)
  | n + 1, s =>
    if 1 < s.walk then (s, 0)
    else
      let w := s.walk + ctx.probe
      let e := marchEval ctx w
      let s' : MarchState := ⟨w, e.hitGluv, e.hitDepth, s.hitDepth⟩
      if e.ceiling < e.surface then (s', 1)
      else
        let r := pass1 ctx n s'
        (r.1, r.2 + 1)

/-- Pass 2 of `computeParallax` (fine backward march): each iteration steps
`walk` back by `fine`, resamples, and breaks as soon as the ray has exited
the surface (`ceiling >= surface`).  The single-layer pass 2 does not touch
`lastDepth`.  Returns the final state and the executed iteration count. -/
def pass2 (ctx : MarchCtx) : ℕ → MarchState → MarchState × ℕ
  | 0, s => (s, 0)
  | n + 1, s =>
    let w := s.walk - ctx.fine
    let e := marchEval ctx w
    let s' : MarchState := ⟨w, e.hitGluv, e.hitDepth, s.lastDepth⟩
    if e.surface ≤ e.ceiling then (s', 1)
    else
      let r := pass2 ctx n s'
      (r.1, r.2 + 1)

/-- Assemble the march context of `computeParallax` from the uniforms: step
sizes from `uQuality`, `safe = 1 - uHeight`, and the ray from the camera
builder.  (The shader's `screenAspect`, `focalLength` and `rayTarget` locals
are computed but never used afterwards and are omitted.) -/
def mkCtx (p : SLParams) (dtex : ℚ → ℚ → ℚ) (screen : ℚ × ℚ) : MarchCtx :=
  { rayOrigin := rayOriginOf p screen
    intersect := intersectOf p screen
    probe := probeStepOf p.quality
    fine := fineStepOf p.quality
    safe := 1 - p.height
    height := p.height
    invert := p.invert
    mirror := p.mirror
    aspect := p.aspect
    dtex := dtex }

/-- Initial march state: `walk = 0`, `hitGluv = screenGluv`, `hitDepth = 0`,
`lastDepth = 0`. -/
def initState (screen : ℚ × ℚ) : MarchState := ⟨0, screen, 0, 0⟩

/-- The two-pass march of `computeParallax`: 200 coarse iterations then 100
fine iterations. -/
def marchResult (p : SLParams) (dtex : ℚ → ℚ → ℚ) (screen : ℚ × ℚ) :
    MarchState :=
  (pass2 (mkCtx p dtex screen) 100
    (pass1 (mkCtx p dtex screen) 200 (initState screen)).1).1

/-- Result record of `computeParallax` (struct `DepthResult`). -/
structure DepthResult where
  gluv : ℚ × ℚ
  depthValue : ℚ
  outOfBounds : Bool
deriving DecidableEq

/-- Single-layer `computeParallax`: run the two-pass march, then flag
`outOfBounds` when mirroring is off and the aspect-corrected hit coordinate
`agluv = hitGluv / vec2(aspect, 1)` leaves the unit box. -/
def computeParallax (p : SLParams) (dtex : ℚ → ℚ → ℚ) (screen : ℚ × ℚ) :
    DepthResult :=
  let s := marchResult p dtex screen
  { gluv := s.hitGluv
    depthValue := s.hitDepth
    outOfBounds :=
      !p.mirror &&
        (decide (1 < |s.hitGluv.1 / p.aspect|) || decide (1 < |s.hitGluv.2|)) }

/-- Single-layer shader `main`: black sentinel for out-of-bounds hits,
otherwise the color texture sampled at the parallax-adjusted coordinate. -/
def mainShader (p : SLParams) (tex : ℚ → ℚ → V4) (dtex : ℚ → ℚ → ℚ)
    (screen : ℚ × ℚ) : V4 :=
  let d := computeParallax p dtex screen
  if d.outOfBounds then ⟨0, 0, 0, 1⟩
  else sampleTexture tex d.gluv p.mirror p.aspect

/-- Parameters of the two-layer fragment shader (its uniform block plus the
two-layer blending controls uLayerBlend, uSteepnessLimit, uBlendSoftness). -/
structure TLParams where
  height : ℚ
  steady : ℚ
  focus : ℚ
  zoom : ℚ
  isometric : ℚ
  dolly : ℚ
  invert : ℚ
  mirror : Bool
  quality : ℚ
  layerBlend : ℚ
  steepnessLimit : ℚ
  blendSoftness : ℚ
  offset : ℚ × ℚ
  center : ℚ × ℚ
  origin : ℚ × ℚ
  aspect : ℚ
deriving DecidableEq

/-- The two GLSL primitives of the two-layer shader that are irrational over
ℚ (`normalize` on `vec3` and `acos`); every statement about the shader
quantifies over them, so nothing depends on their actual values. -/
structure GlslFns where
  normalize3 : V3 → V3
  acos : ℚ → ℚ

/-- Two-layer shader, dot product used by `vectorAngle`. -/
def dot3 (a b : V3) : ℚ := a.x * b.x + a.y * b.y + a.z * b.z

/-- Two-layer shader, `vectorAngle(a, b) =
acos(clamp(dot(normalize(a), normalize(b)), -1, 1))`. -/
def vectorAngle (fns : GlslFns) (a b : V3) : ℚ :=
  fns.acos (glslClamp (dot3 (fns.normalize3 a) (fns.normalize3 b)) (-1) 1)

/-- Two-layer shader, `gluvToStuv`: like the single-layer conversion but with
the y axis flipped (`stuv.y = 1 - stuv.y`). -/
def gluvToStuv (gluv : ℚ × ℚ) (aspect : ℚ) : ℚ × ℚ :=
  let stuv := ((gluv.1 * (1 / aspect) + 1) / 2, (gluv.2 * 1 + 1) / 2)
  (stuv.1, 1 - stuv.2)

/-- Two-layer shader, `sampleTex`: optional mirrored repeat, then the flipped
stuv conversion, then texture lookup. -/
def sampleTex {α : Type} (tex : ℚ → ℚ → α) (gluv : ℚ × ℚ) (mirror : Bool)
    (aspect : ℚ) : α :=
  let g := if mirror then mirroredRepeat gluv aspect else gluv
  let s := gluvToStuv g aspect
  tex s.1 s.2

/-- Two-layer shader, `sampleDepthFG` / `sampleDepthBG`: red channel of a
depth texture with the inversion blend `mix(d, 1-d, uInvert)` applied. -/
def sampleDepthInv (dtex : ℚ → ℚ → ℚ) (gluv : ℚ × ℚ) (mirror : Bool)
    (aspect invert : ℚ) : ℚ :=
  let d := sampleTex dtex gluv mirror aspect
  glslMix d (1 - d) invert

/-- March context of the two-layer shader loops (`rayMarch` and
`rayMarchBackground` share this shape; they differ in the depth texture). -/
structure TLCtx where
  rayOrigin : V3
  intersect : V3
  probe : ℚ
  fine : ℚ
  safe : ℚ
  height : ℚ
  invert : ℚ
  mirror : Bool
  aspect : ℚ
  dtex : ℚ → ℚ → ℚ

/-- Loop state of the two-layer `rayMarch`: `walk`, `hitUV`, `hitDepth`,
`lastDepth`, and the `derivative` written by pass 2 on exit.  GLSL leaves
`hit.derivative` uninitialized until then; the model initializes it to 0. -/
structure TLState where
  walk : ℚ
  hitUV : ℚ × ℚ
  hitDepth : ℚ
  lastDepth : ℚ
  derivative : ℚ
deriving DecidableEq

/-- Evaluate the two-layer ray at `walk`: the two-layer shader samples depth
through `sampleDepthFG` (inversion already applied) and uses
`surface = uHeight * hitDepth`. -/
def tlEval (ctx : TLCtx) (walk : ℚ) : ProbeEval :=
  let point := glslMix3 ctx.rayOrigin ctx.intersect (glslMix ctx.safe 1 walk)
  let g := (point.x, point.y)
  let d := sampleDepthInv ctx.dtex g ctx.mirror ctx.aspect ctx.invert
  { hitGluv := g
    hitDepth := d
    surface := ctx.height * d
    ceiling := 1 - point.z }

/-- Two-layer `rayMarch`, forward coarse pass (cap 200): break on `walk > 1`
at the top, advance, update `lastDepth`, break on overshoot.  Returns the
state and the number of executed loop bodies. -/
def tlPass1 (ctx : TLCtx) : ℕ → TLState → TLState × ℕ
  | 0, s => (s, 0)
  | n + 1, s =>
    if 1 < s.walk then (s, 0)
    else
      let w := s.walk + ctx.probe
      let e := tlEval ctx w
      let s' : TLState := ⟨w, e.hitGluv, e.hitDepth, s.hitDepth, s.derivative⟩
      if e.ceiling < e.surface then (s', 1)
      else
        let r := tlPass1 ctx n s'
        (r.1, r.2 + 1)

/-- Two-layer `rayMarch`, backward fine pass (cap 100): step back, update
`lastDepth` and resample; on exit (`ceiling >= surface`) record
`derivative = (lastDepth - hitDepth) / fineStep` and break. -/
def tlPass2 (ctx : TLCtx) : ℕ → TLState → TLState × ℕ
  | 0, s => (s, 0)
  | n + 1, s =>
    let w := s.walk - ctx.fine
    let e := tlEval ctx w
    if e.surface ≤ e.ceiling then
      (⟨w, e.hitGluv, e.hitDepth, s.hitDepth,
        (s.hitDepth - e.hitDepth) / ctx.fine⟩, 1)
    else
      let r := tlPass2 ctx n ⟨w, e.hitGluv, e.hitDepth, s.hitDepth, s.derivative⟩
      (r.1, r.2 + 1)

/-- Ray origin of the two-layer marches (same formula as the single-layer
shader). -/
def tlRayOriginOf (p : TLParams) (screen : ℚ × ℚ) : V3 :=
  let cameraXY := (p.offset.1 + p.center.1, p.offset.2 + p.center.2)
  ⟨cameraXY.1 + screen.1 * p.zoom * p.isometric + p.origin.1,
   cameraXY.2 + screen.2 * p.zoom * p.isometric + p.origin.2,
   0 + 0 - p.dolly + 0⟩

/-- Intersection point of the two-layer marches (same "glued" plane as the
single-layer shader). -/
def tlIntersectOf (p : TLParams) (screen : ℚ × ℚ) : V3 :=
  let relSteady := p.steady * p.height
  let cameraXY := (p.offset.1 + p.center.1, p.offset.2 + p.center.2)
  let base : V3 := ⟨p.center.1 + screen.1, p.center.2 + screen.2, 1⟩
  if 0.001 < |1 - relSteady| then
    ⟨base.x - cameraXY.1 * (1 / (1 - relSteady)),
     base.y - cameraXY.2 * (1 / (1 - relSteady)), base.z - 0⟩
  else base

/-- March context of the two-layer `rayMarch`, against a given depth
texture. -/
def mkTLCtx (p : TLParams) (dtex : ℚ → ℚ → ℚ) (screen : ℚ × ℚ) : TLCtx :=
  { rayOrigin := tlRayOriginOf p screen
    intersect := tlIntersectOf p screen
    probe := probeStepOf p.quality
    fine := fineStepOf p.quality
    safe := 1 - p.height
    height := p.height
    invert := p.invert
    mirror := p.mirror
    aspect := p.aspect
    dtex := dtex }

/-- Per-pixel result of the two-layer `rayMarch` (struct `RayHit`). -/
structure RayHit where
  uv : ℚ × ℚ
  depth : ℚ
  derivative : ℚ
  steep : ℚ
  normal : V3
  valid : Bool
  isBackground : Bool

/-- Two-layer `rayMarch` against the foreground depth texture: two-pass
march, then surface normal from backward differences with step `fineStep`,
`steep = abs(derivative) * vectorAngle(normal, z-axis)`,
`isBackground = steep > uSteepnessLimit`, and the bounds check. -/
def rayMarch (fns : GlslFns) (p : TLParams) (dtex : ℚ → ℚ → ℚ)
    (screen : ℚ × ℚ) : RayHit :=
  let ctx := mkTLCtx p dtex screen
  let s0 : TLState := ⟨0, screen, 0, 0, 0⟩
  let s := (tlPass2 ctx 100 (tlPass1 ctx 200 s0).1).1
  let gradStep := ctx.fine
  let hd := s.hitDepth
  let nrm := fns.normalize3
    ⟨(sampleDepthInv dtex (s.hitUV.1 - gradStep, s.hitUV.2) p.mirror p.aspect
        p.invert - hd) / gradStep,
     (sampleDepthInv dtex (s.hitUV.1, s.hitUV.2 - gradStep) p.mirror p.aspect
        p.invert - hd) / gradStep,
     max p.height gradStep⟩
  let normalAngle := vectorAngle fns nrm ⟨0, 0, 1⟩
  let steep := |s.derivative| * normalAngle
  { uv := s.hitUV
    depth := hd
    derivative := s.derivative
    steep := steep
    normal := nrm
    isBackground := decide (p.steepnessLimit < steep)
    valid :=
      !(!p.mirror &&
        (decide (1 < |s.hitUV.1 / p.aspect|) || decide (1 < |s.hitUV.2|))) }

/-- Loop state of `rayMarchBackground` (`walk`, `hitUV`, `hitDepth`: no
`lastDepth`, no derivative). -/
structure BGState where
  walk : ℚ
  hitUV : ℚ × ℚ
  hitDepth : ℚ
deriving DecidableEq

/-- `rayMarchBackground` forward pass (cap 200). -/
def bgPass1 (ctx : TLCtx) : ℕ → BGState → BGState × ℕ
  | 0, s => (s, 0)
  | n + 1, s =>
    if 1 < s.walk then (s, 0)
    else
      let w := s.walk + ctx.probe
      let e := tlEval ctx w
      let s' : BGState := ⟨w, e.hitGluv, e.hitDepth⟩
      if e.ceiling < e.surface then (s', 1)
      else
        let r := bgPass1 ctx n s'
        (r.1, r.2 + 1)

/-- `rayMarchBackground` backward pass (cap 100). -/
def bgPass2 (ctx : TLCtx) : ℕ → BGState → BGState × ℕ
  | 0, s => (s, 0)
  | n + 1, s =>
    let w := s.walk - ctx.fine
    let e := tlEval ctx w
    let s' : BGState := ⟨w, e.hitGluv, e.hitDepth⟩
    if e.surface ≤ e.ceiling then (s', 1)
    else
      let r := bgPass2 ctx n s'
      (r.1, r.2 + 1)

/-- Two-layer `rayMarchBackground`: the same two-pass march run independently
against the background depth texture; returns only the hit coordinate. -/
def rayMarchBackground (p : TLParams) (dtexBG : ℚ → ℚ → ℚ)
    (screen : ℚ × ℚ) : ℚ × ℚ :=
  let ctx := mkTLCtx p dtexBG screen
  let s0 : BGState := ⟨0, screen, 0⟩
  ((bgPass2 ctx 100 (bgPass1 ctx 200 s0).1).1).hitUV

/-- Two-layer shader `main` on the render path (`uVisualization = 0`;
positive values dispatch to debug visualizations before this code runs):
invalid hits paint the black sentinel; `uLayerBlend < 0.01` short-circuits to
the foreground sample; steep hits re-march against the background layer and
blend with `smoothstep(0, 1 + uBlendSoftness, overThreshold) * uLayerBlend`
where `overThreshold = (steep - limit) / max(limit, 0.01)`. -/
def compositorMain (fns : GlslFns) (p : TLParams) (texFG texBG : ℚ → ℚ → V4)
    (dtexFG dtexBG : ℚ → ℚ → ℚ) (screen : ℚ × ℚ) : V4 :=
  let hit := rayMarch fns p dtexFG screen
  if !hit.valid then ⟨0, 0, 0, 1⟩
  else
    let fgColor := sampleTex texFG hit.uv p.mirror p.aspect
    if p.layerBlend < 0.01 then fgColor
    else if hit.isBackground then
      let bgUV := rayMarchBackground p dtexBG screen
      let bgColor := sampleTex texBG bgUV p.mirror p.aspect
      let overThreshold :=
        (hit.steep - p.steepnessLimit) / max p.steepnessLimit 0.01
      let blendFactor :=
        glslSmoothstep 0 (1 + p.blendSoftness) overThreshold * p.layerBlend
      glslMix4 fgColor bgColor blendFactor
    else fgColor

/-- Pass 1 as the specification words it (§4.3): starting from the current
state, each iteration adds `probe` to `walk`, evaluates the ray, and stops
when `ceiling < surface` or when `walk > 1`, under a hard cap given by the
fuel.  The only difference from the source loop is that the source checks
`walk > 1` at the top of the next iteration instead of right after the
update. -/
def specPass1 (ctx : MarchCtx) : ℕ → MarchState → MarchState
  | 0, s => s
  | n + 1, s =>
    let w := s.walk + ctx.probe
    let e := marchEval ctx w
    let s' : MarchState := ⟨w, e.hitGluv, e.hitDepth, s.hitDepth⟩
    if e.ceiling < e.surface ∨ 1 < w then s'
    else specPass1 ctx n s'

/-- Pass 2 as the specification words it: repeatedly subtract `fine` from
`walk`, resample, and stop as soon as `ceiling ≥ surface`, under a hard cap
given by the fuel. -/
def specPass2 (ctx : MarchCtx) : ℕ → MarchState → MarchState
  | 0, s => s
  | n + 1, s =>
    let w := s.walk - ctx.fine
    let e := marchEval ctx w
    let s' : MarchState := ⟨w, e.hitGluv, e.hitDepth, s.lastDepth⟩
    if e.surface ≤ e.ceiling then s'
    else specPass2 ctx n s'

/-- The two-pass march exactly as specified: pass 1 with step size
`1/lerp(50,120,quality)` starting at `walk = 0` capped at 200 iterations,
then pass 2 with step size `1/lerp(200,2000,quality)` capped at 100
iterations, over the ray `(rayOrigin, intersect)` with `safe = 1 - height`
and `surface = height * mix(depth, 1-depth, invert)`. -/
def specTwoPassMarch (rayOrigin intersect : V3) (height invert quality : ℚ)
    (mirror : Bool) (aspect : ℚ) (dtex : ℚ → ℚ → ℚ) (screen : ℚ × ℚ) :
    MarchState :=
  let ctx : MarchCtx :=
    { rayOrigin := rayOrigin
      intersect := intersect
      probe := 1 / glslMix 50 120 quality
      fine := 1 / glslMix 200 2000 quality
      safe := 1 - height
      height := height
      invert := invert
      mirror := mirror
      aspect := aspect
      dtex := dtex }
  specPass2 ctx 100 (specPass1 ctx 200 (initState screen))

/-- Depth processor, `createForegroundMask` pass 1: threshold-based
detection, `mask[i] = depth[i] > foregroundThreshold ? 1 : 0`. -/
def thresholdMask (depth : ℕ → ℚ) (threshold : ℚ) : ℕ → Bool :=
  fun i => decide (threshold < depth i)

/-- Depth processor, `createForegroundMask` pass 2: for interior pixels,
the centered-difference gradient `dx = |d[i+1]-d[i-1]|/2`,
`dy = |d[i+w]-d[i-w]|/2` forces the mask to 1 when
`sqrt(dx^2+dy^2) > 0.15` and `d > foregroundThreshold * 0.7`.  Both sides of
the square-root comparison are nonnegative, so it is embedded as the exact
equivalent `dx^2 + dy^2 > 0.15^2`. -/
def gradientForce (depth : ℕ → ℚ) (w h : ℕ) (threshold : ℚ)
    (m : ℕ → Bool) : ℕ → Bool :=
  fun idx =>
    let x := idx % w
    let y := idx / w
    if 1 ≤ x ∧ x < w - 1 ∧ 1 ≤ y ∧ y < h - 1 then
      let dx := |depth (idx + 1) - depth (idx - 1)| / 2
      let dy := |depth (idx + w) - depth (idx - w)| / 2
      if (0.15 : ℚ) ^ 2 < dx ^ 2 + dy ^ 2 ∧ threshold * 0.7 < depth idx then
        true
      else m idx
    else m idx

/-- Depth processor, `createForegroundMask`: threshold pass then gradient
pass (the gradient pass reads only the depth grid, so its in-place update is
order-independent). -/
def createForegroundMask (depth : ℕ → ℚ) (w h : ℕ) (threshold : ℚ) :
    ℕ → Bool :=
  gradientForce depth w h threshold (thresholdMask depth threshold)

/-- Kernel offsets `-radius ... radius` of `dilateMask`'s nested loops. -/
def kernelOffsets (radius : ℕ) : List ℤ :=
  (List.range (2 * radius + 1)).map fun (n : ℕ) => (n : ℤ) - (radius : ℤ)

/-- Index clamping `Math.min(Math.max(v, 0), hi)` used by `dilateMask`. -/
def clampIdx (v hi : ℤ) : ℤ := min (max v 0) hi

/-- Depth processor, `dilateMask`: for `radius <= 0` the mask is returned
unchanged; otherwise a pixel is set when any sample of the circular kernel
(`kx^2 + ky^2 <= radius^2`, sample coordinates clamped to the image bounds)
is set. -/
def dilateMask (m : ℕ → Bool) (w h : ℕ) (radius : ℕ) : ℕ → Bool :=
  if radius = 0 then m
  else fun idx =>
    let x := idx % w
    let y := idx / w
    (kernelOffsets radius).any fun ky =>
      (kernelOffsets radius).any fun kx =>
        decide (kx * kx + ky * ky ≤ (radius : ℤ) * radius) &&
          m ((clampIdx ((y : ℤ) + ky) ((h : ℤ) - 1)).toNat * w +
             (clampIdx ((x : ℤ) + kx) ((w : ℤ) - 1)).toNat)

/-- One level of the push-pull pyramid: a value grid and a validity grid with
their dimensions (depth-processor levels `{ data, valid, width, height }`).
Grids are total functions of the flattened index `y * width + x`. -/
structure PLevel where
  data : ℕ → ℚ
  valid : ℕ → Bool
  width : ℕ
  height : ℕ

/-- Sum and count of the valid samples among the 2x2 block of parent-level
children of pyramid cell `(x, y)` (source coordinates clamped to the parent
bounds, as in `buildPyramid`'s inner loops). -/
def childSum (l : PLevel) (x y : ℕ) : ℚ × ℕ :=
  (List.range 2).foldl
    (fun acc dy =>
      (List.range 2).foldl
        (fun acc dx =>
          let sx := min (x * 2 + dx) (l.width - 1)
          let sy := min (y * 2 + dy) (l.height - 1)
          let srcIdx := sy * l.width + sx
          if l.valid srcIdx then (acc.1 + l.data srcIdx, acc.2 + 1) else acc)
        acc)
    (0, 0)

/-- One push step of `buildPyramid`: halve both dimensions (at least 1);
each cell averages its valid children and is valid iff it has any. -/
def downsample (l : PLevel) : PLevel :=
  let newW := max 1 (l.width / 2)
  let newH := max 1 (l.height / 2)
  { width := newW
    height := newH
    data := fun idx =>
      let c := childSum l (idx % newW) (idx / newW)
      if 0 < c.2 then c.1 / (c.2 : ℚ) else 0
    valid := fun idx => decide (0 < (childSum l (idx % newW) (idx / newW)).2) }

/-- The coarser levels of `buildPyramid`'s `while (w > 1 || h > 1)` loop,
written with a fuel argument large enough for the loop to reach its natural
exit (each step halves the larger dimension). -/
def pyramidRest : ℕ → PLevel → List PLevel
  | 0, _ => []
  | fuel + 1, l =>
    if l.width ≤ 1 ∧ l.height ≤ 1 then []
    else
      let d := downsample l
      d :: pyramidRest fuel d

/-- Depth processor, `buildPyramid`: level 0 followed by the coarser
levels. -/
def buildPyramid (l0 : PLevel) : List PLevel :=
  l0 :: pyramidRest (max l0.width l0.height) l0

/-- Index of the coarser-level cell a finer-level pixel pulls from:
`(min(floor(y/2), coarseH-1)) * coarseW + min(floor(x/2), coarseW-1)`. -/
def parentIdx (fineL coarse : PLevel) (idx : ℕ) : ℕ :=
  let x := idx % fineL.width
  let y := idx / fineL.width
  min (y / 2) (coarse.height - 1) * coarse.width + min (x / 2) (coarse.width - 1)

/-- One pull step of `reconstructFromPyramid`: pixels valid at the finer
level keep their value; invalid pixels inherit the coarser reconstruction
when that is valid, and otherwise stay invalid at 0. -/
def pullCombine (fineL coarse : PLevel) : PLevel :=
  { width := fineL.width
    height := fineL.height
    data := fun idx =>
      if fineL.valid idx then fineL.data idx
      else if coarse.valid (parentIdx fineL coarse idx) then
        coarse.data (parentIdx fineL coarse idx)
      else 0
    valid := fun idx =>
      fineL.valid idx || coarse.valid (parentIdx fineL coarse idx) }

/-- The pull phase over the pyramid list (finest level first): start from the
coarsest level and combine downward, exactly as the source's
`while (currentLevel > 0)` loop. -/
def reconstructList : List PLevel → PLevel
  | [] => ⟨fun _ => 0, fun _ => false, 0, 0⟩
  | [l] => l
  | l :: c :: rest => pullCombine l (reconstructList (c :: rest))

/-- One pass of `smoothMaskedRegions`: every originally-masked pixel at
kernel distance from the border is replaced by the 5x5 box average of the
previous pass's values (`kernelSize = 2`, count always 25); all other pixels
are untouched. -/
def smoothPass (f : ℕ → ℚ) (mask : ℕ → Bool) (w h : ℕ) : ℕ → ℚ :=
  fun idx =>
    let x := idx % w
    let y := idx / w
    if 2 ≤ x ∧ x < w - 2 ∧ 2 ≤ y ∧ y < h - 2 ∧ mask idx = true then
      ((List.range 5).foldl
        (fun acc j =>
          (List.range 5).foldl
            (fun acc i => acc + f ((y - 2 + j) * w + (x - 2 + i))) acc)
        0) / 25
    else f idx

/-- Depth processor, `smoothMaskedRegions`: three smoothing passes. -/
def smoothMaskedRegions (data : ℕ → ℚ) (mask : ℕ → Bool) (w h : ℕ) :
    ℕ → ℚ :=
  smoothPass (smoothPass (smoothPass data mask w h) mask w h) mask w h

/-- Depth processor, `reconstructFromPyramid`: pull phase then the final
smoothing of the masked regions. -/
def reconstructFromPyramid (pyr : List PLevel) (mask : ℕ → Bool) (w h : ℕ) :
    ℕ → ℚ :=
  smoothMaskedRegions (reconstructList pyr).data mask w h

/-- Level 0 of `inpaintBackground`: unmasked pixels keep the original depth
and are valid; masked pixels are zeroed and invalid. -/
def initLevel (depth : ℕ → ℚ) (mask : ℕ → Bool) (w h : ℕ) : PLevel :=
  ⟨fun i => if mask i then 0 else depth i, fun i => !mask i, w, h⟩

/-- Depth processor, `inpaintBackground`: push-pull inpainting of the depth
grid under the (dilated) foreground mask. -/
def inpaintBackground (depth : ℕ → ℚ) (mask : ℕ → Bool) (w h : ℕ) :
    ℕ → ℚ :=
  reconstructFromPyramid (buildPyramid (initLevel depth mask w h)) mask w h

/-- Whether any cell along a pixel's pyramid ancestor chain (the pixel
itself, then the coarser cell it pulls from, and so on) is valid. -/
def anyValidInChain : List PLevel → ℕ → Bool
  | [], _ => false
  | [l], idx => l.valid idx
  | l :: c :: rest, idx =>
    l.valid idx || anyValidInChain (c :: rest) (parentIdx l c idx)

/-- Maximum of a list of naturals accumulated from 0 (the `maxVal` loops of
`applyEdgeFix` start at 0 and depth bytes are nonnegative). -/
def natMaxList (l : List ℕ) : ℕ := l.foldl max 0

/-- Renderer `applyEdgeFix`, pass 1: per-pixel horizontal maximum over
columns `max(0, x-radius) .. min(width-1, x+radius)` of the same row. -/
def horizMaxPass (src : ℕ → ℕ) (w : ℕ) (radius : ℕ) : ℕ → ℕ :=
  fun idx =>
    let x := idx % w
    let y := idx / w
    natMaxList
      ((List.range' (x - radius) (min (w - 1) (x + radius) + 1 - (x - radius))).map
        fun kx => src (y * w + kx))

/-- Renderer `applyEdgeFix`, pass 2: per-pixel vertical maximum over rows
`max(0, y-radius) .. min(height-1, y+radius)` of the same column. -/
def vertMaxPass (src : ℕ → ℕ) (w h : ℕ) (radius : ℕ) : ℕ → ℕ :=
  fun idx =>
    let x := idx % w
    let y := idx / w
    natMaxList
      ((List.range' (y - radius) (min (h - 1) (y + radius) + 1 - (y - radius))).map
        fun ky => src (ky * w + x))

/-- Renderer `applyEdgeFix` on the depth channel: `edgeFix <= 0` uploads the
original depth data unchanged; otherwise the horizontal then vertical
maximum passes run with `radius = ceil(edgeFix * 10)`. -/
def applyEdgeFix (edgeFix : ℚ) (src : ℕ → ℕ) (w h : ℕ) : ℕ → ℕ :=
  if edgeFix ≤ 0 then src
  else
    let radius := (⌈edgeFix * 10⌉).toNat
    vertMaxPass (horizMaxPass src w radius) w h radius

/-- Direct 2D square-window maximum, as the specification describes the edge
fix: the maximum of the depth channel over the axis-aligned square window of
half-width `radius` around `(x, y)`, clamped to the image bounds. -/
def squareWindowMax (src : ℕ → ℕ) (w h radius x y : ℕ) : ℕ :=
  natMaxList
    ((List.range' (y - radius) (min (h - 1) (y + radius) + 1 - (y - radius))).flatMap
      fun ky =>
        (List.range' (x - radius) (min (w - 1) (x + radius) + 1 - (x - radius))).map
          fun kx => src (ky * w + kx))

/-- Renderer `loadImage`: decodes the bitmap and stores
`imageAspect = width / height` with no validation of the dimensions.  The
`Except` error channel models the configuration error the specification
calls for; the source has no failure path, so it is never used. -/
def loadImageAspect (w h : ℕ) : Except String ℚ :=
  Except.ok ((w : ℚ) / (h : ℚ))

/-- Concrete 2x2 depth grid used to exercise the depth processor. -/
def exDepth : ℕ → ℚ := fun i => (i : ℚ) / 10

/-- Concrete mask for the 2x2 grid: only pixel 0 is masked. -/
def exMask : ℕ → Bool := fun i => i == 0

/-- Concrete 3x3 depth grid with a sharp step used to exercise the mask
extractor. -/
def exDepth3 : ℕ → ℚ := fun i => if i % 3 = 2 then 9 / 10 else 1 / 10

/-- Concrete color texture whose red channel returns the s coordinate, to
distinguish samples taken at different coordinates. -/
def exTex : ℚ → ℚ → V4 := fun s _ => ⟨s, 0, 0, 1⟩

/-- Constant white color texture. -/
def exWhite : ℚ → ℚ → V4 := fun _ _ => ⟨1, 1, 1, 1⟩

/-- Constant zero depth texture (flat height field). -/
def exDepth0 : ℚ → ℚ → ℚ := fun _ _ => 0

/-- Concrete instantiation of the irrational GLSL primitives; every theorem
quantifies over them, so any choice works for evaluation. -/
def exFns : GlslFns := ⟨fun v => v, fun _ => 0⟩

/-- Concrete source grid for the edge-fix example. -/
def exSrc : ℕ → ℕ := fun i => i

/-- Single-layer camera with `height = 0` but a nonzero `offset`. -/
def cxSL : SLParams :=
  { height := 0, steady := 0, focus := 0, zoom := 1, isometric := 0
    dolly := 0, invert := 0, mirror := true, quality := 0
    offset := (1 / 2, 0), center := (0, 0), origin := (0, 0), aspect := 1 }

/-- Single-layer camera with `height = 0` and zero offset, mirroring on. -/
def exSLw : SLParams :=
  { height := 0, steady := 0, focus := 0, zoom := 1, isometric := 0
    dolly := 0, invert := 0, mirror := true, quality := 0
    offset := (0, 0), center := (0, 0), origin := (0, 0), aspect := 1 }

/-- Single-layer camera with mirroring off (for the out-of-bounds sentinel
path). -/
def exSLoob : SLParams :=
  { height := 0, steady := 0, focus := 0, zoom := 1, isometric := 0
    dolly := 0, invert := 0, mirror := false, quality := 0
    offset := (0, 0), center := (0, 0), origin := (0, 0), aspect := 1 }

/-- Two-layer camera with mirroring off and two-layer blending disabled. -/
def cxTL : TLParams :=
  { height := 0, steady := 0, focus := 0, zoom := 1, isometric := 0
    dolly := 0, invert := 0, mirror := false, quality := 0
    layerBlend := 0, steepnessLimit := 1, blendSoftness := 0
    offset := (0, 0), center := (0, 0), origin := (0, 0), aspect := 1 }

/-- Two-layer camera with mirroring on and two-layer blending disabled. -/
def exTLw : TLParams :=
  { height := 0, steady := 0, focus := 0, zoom := 1, isometric := 0
    dolly := 0, invert := 0, mirror := true, quality := 0
    layerBlend := 0, steepnessLimit := 1, blendSoftness := 0
    offset := (0, 0), center := (0, 0), origin := (0, 0), aspect := 1 }

theorem pass1_count_le (ctx : MarchCtx) (n : ℕ) :
    ∀ s, (pass1 ctx n s).2 ≤ n := by
  induction n with
  | zero => intro s; simp [pass1]
  | succ n ih =>
    intro s
    simp only [pass1]
    split
    · simp
    · split
      · simp
      · exact Nat.succ_le_succ (ih _)

theorem pass2_count_le (ctx : MarchCtx) (n : ℕ) :
    ∀ s, (pass2 ctx n s).2 ≤ n := by
  induction n with
  | zero => intro s; simp [pass2]
  | succ n ih =>
    intro s
    simp only [pass2]
    split
    · simp
    · exact Nat.succ_le_succ (ih _)

theorem tlPass1_count_le (ctx : TLCtx) (n : ℕ) :
    ∀ s, (tlPass1 ctx n s).2 ≤ n := by
  induction n with
  | zero => intro s; simp [tlPass1]
  | succ n ih =>
    intro s
    simp only [tlPass1]
    split
    · simp
    · split
      · simp
      · exact Nat.succ_le_succ (ih _)

theorem tlPass2_count_le (ctx : TLCtx) (n : ℕ) :
    ∀ s, (tlPass2 ctx n s).2 ≤ n := by
  induction n with
  | zero => intro s; simp [tlPass2]
  | succ n ih =>
    intro s
    simp only [tlPass2]
    split
    · simp
    · exact Nat.succ_le_succ (ih _)

theorem bgPass1_count_le (ctx : TLCtx) (n : ℕ) :
    ∀ s, (bgPass1 ctx n s).2 ≤ n := by
  induction n with
  | zero => intro s; simp [bgPass1]
  | succ n ih =>
    intro s
    simp only [bgPass1]
    split
    · simp
    · split
      · simp
      · exact Nat.succ_le_succ (ih _)

theorem bgPass2_count_le (ctx : TLCtx) (n : ℕ) :
    ∀ s, (bgPass2 ctx n s).2 ≤ n := by
  induction n with
  | zero => intro s; simp [bgPass2]
  | succ n ih =>
    intro s
    simp only [bgPass2]
    split
    · simp
    · exact Nat.succ_le_succ (ih _)

/-- C2: the two-pass ray march terminates for every depth raster (an
arbitrary sampling function) and every camera parameter setting: the coarse
forward pass executes at most 200 loop bodies and the fine backward pass at
most 100, in the single-layer `computeParallax` as well as in the two-layer
`rayMarch` and `rayMarchBackground`.  The marches are pure functions of their
arguments, so no state is carried across invocations. -/
theorem ray_march_iteration_bounds (p : SLParams) (tp : TLParams)
    (dtex dtexFG dtexBG : ℚ → ℚ → ℚ) (screen : ℚ × ℚ) :
    (pass1 (mkCtx p dtex screen) 200 (initState screen)).2 ≤ 200 ∧
    (pass2 (mkCtx p dtex screen) 100
      (pass1 (mkCtx p dtex screen) 200 (initState screen)).1).2 ≤ 100 ∧
    (tlPass1 (mkTLCtx tp dtexFG screen) 200 ⟨0, screen, 0, 0, 0⟩).2 ≤ 200 ∧
    (tlPass2 (mkTLCtx tp dtexFG screen) 100
      (tlPass1 (mkTLCtx tp dtexFG screen) 200 ⟨0, screen, 0, 0, 0⟩).1).2 ≤ 100 ∧
    (bgPass1 (mkTLCtx tp dtexBG screen) 200 ⟨0, screen, 0⟩).2 ≤ 200 ∧
    (bgPass2 (mkTLCtx tp dtexBG screen) 100
      (bgPass1 (mkTLCtx tp dtexBG screen) 200 ⟨0, screen, 0⟩).1).2 ≤ 100 :=
  ⟨pass1_count_le _ _ _, pass2_count_le _ _ _, tlPass1_count_le _ _ _,
   tlPass2_count_le _ _ _, bgPass1_count_le _ _ _, bgPass2_count_le _ _ _⟩

theorem glslMod_add_two (u : ℚ) : glslMod (u + 2) 2 = glslMod u 2 := by
  unfold glslMod
  have h : (u + 2) / 2 = u / 2 + 1 := by ring
  rw [h, Int.floor_add_one]
  push_cast
  ring

theorem triangleWave_add_period (x p : ℚ) :
    triangleWave (x + p) p = triangleWave x p := by
  by_cases hp : p = 0
  · rw [hp, add_zero]
  · unfold triangleWave
    have h : 2 * (x + p) / p - 0.5 = 2 * x / p - 0.5 + 2 := by
      field_simp
      ring
    rw [h, glslMod_add_two]

/-- C4: mirror sampling is periodic with period `(4*aspect, 4)`: for every
texture, coordinate and aspect ratio, `sampleTexture` with `mirror = true`
gives the same sample at `coord + (4*aspect, 4)` as at `coord`, because the
mirrored-repeat wrap is the per-axis triangle wave with x-period `4*aspect`
and y-period `4`. -/
theorem mirror_sampling_periodic {α : Type} (tex : ℚ → ℚ → α)
    (gluv : ℚ × ℚ) (aspect : ℚ) :
    sampleTexture tex (gluv.1 + 4 * aspect, gluv.2 + 4) true aspect =
      sampleTexture tex gluv true aspect := by
  unfold sampleTexture stuvOfSL
  simp only [if_true]
  have hmr : mirroredRepeat (gluv.1 + 4 * aspect, gluv.2 + 4) aspect =
      mirroredRepeat gluv aspect := by
    unfold mirroredRepeat
    simp only
    rw [triangleWave_add_period gluv.1 (4 * aspect),
      triangleWave_add_period gluv.2 4]
  rw [hmr]

/-- C9 counterexample: the program does not fail fast on a degenerate image
aspect ratio; `loadImage` succeeds even for a zero-height bitmap instead of
producing a configuration error. -/
theorem aspect_guard_counterexample : (loadImageAspect 640 0).isOk = true :=
  rfl

/-- C9 amended: no aspect-ratio guard exists.  `loadImage` stores
`aspect = width / height` unconditionally and never produces an error, and
`sampleTexture` divides by the aspect ratio unconditionally during the
gluv-to-stuv conversion. -/
theorem aspect_guard_absent :
    (∀ w h : ℕ, loadImageAspect w h = Except.ok ((w : ℚ) / (h : ℚ))) ∧
    (∀ (tex : ℚ → ℚ → ℚ) (gluv : ℚ × ℚ) (aspect : ℚ),
      sampleTexture tex gluv false aspect =
        tex ((gluv.1 * (1 / aspect) + 1) / 2) ((gluv.2 * 1 + 1) / 2)) :=
  ⟨fun _ _ => rfl, fun _ _ _ => rfl⟩

theorem pass1_of_gt (ctx : MarchCtx) (n : ℕ) (s : MarchState)
    (h : 1 < s.walk) : (pass1 ctx n s).1 = s := by
  cases n with
  | zero => rfl
  | succ n => simp [pass1, h]

theorem pass1_eq_specPass1 (ctx : MarchCtx) (n : ℕ) :
    ∀ s, s.walk ≤ 1 → (pass1 ctx n s).1 = specPass1 ctx n s := by
  induction n with
  | zero => intro s _; rfl
  | succ n ih =>
    intro s hs
    simp only [pass1, specPass1, if_neg (not_lt.2 hs)]
    by_cases hc :
        (marchEval ctx (s.walk + ctx.probe)).ceiling <
          (marchEval ctx (s.walk + ctx.probe)).surface
    · rw [if_pos hc, if_pos (Or.inl hc)]
    · by_cases hw : 1 < s.walk + ctx.probe
      · rw [if_neg hc, if_pos (Or.inr hw)]
        exact pass1_of_gt ctx n _ hw
      · rw [if_neg hc, if_neg (by tauto)]
        exact ih _ (not_lt.1 hw)

theorem pass2_eq_specPass2 (ctx : MarchCtx) (n : ℕ) :
    ∀ s, specPass2 ctx n s = (pass2 ctx n s).1 := by
  induction n with
  | zero => intro s; rfl
  | succ n ih =>
    intro s
    simp only [pass2, specPass2]
    split
    · rfl
    · exact ih _

/-- C3: the two-pass marcher of `computeParallax` computes exactly the
algorithm the specification describes: the spec-worded march (pass 1 with
step `1/lerp(50,120,quality)` from `walk = 0`, stopping on `ceiling <
surface` or `walk > 1` or after 200 iterations; pass 2 with step
`1/lerp(200,2000,quality)`, stopping on `ceiling ≥ surface` or after 100
iterations) produces the same final state as the source loops, for every
camera parameter setting and every depth raster. -/
theorem two_pass_march_matches_spec (p : SLParams) (dtex : ℚ → ℚ → ℚ)
    (screen : ℚ × ℚ) :
    specTwoPassMarch (rayOriginOf p screen) (intersectOf p screen)
      p.height p.invert p.quality p.mirror p.aspect dtex screen =
    marchResult p dtex screen := by
  unfold specTwoPassMarch marchResult mkCtx probeStepOf fineStepOf
  rw [pass2_eq_specPass2, ← pass1_eq_specPass1 _ _ _ (by norm_num [initState])]

theorem glslMix_one_one (w : ℚ) : glslMix 1 1 w = 1 := by
  unfold glslMix; ring

theorem glslMix_right (a b : ℚ) : glslMix a b 1 = b := by
  unfold glslMix; ring

theorem marchEval_safe_one (ctx : MarchCtx) (hsafe : ctx.safe = 1) (w : ℚ) :
    (marchEval ctx w).hitGluv = (ctx.intersect.x, ctx.intersect.y) := by
  unfold marchEval glslMix3
  simp only [hsafe, glslMix_one_one, glslMix_right]

theorem pass2_gluv_of_safe_one (ctx : MarchCtx) (hsafe : ctx.safe = 1)
    (n : ℕ) : ∀ s, 0 < n →
    ((pass2 ctx n s).1).hitGluv = (ctx.intersect.x, ctx.intersect.y) := by
  induction n with
  | zero => intro s h; exact absurd h (lt_irrefl 0)
  | succ n ih =>
    intro s _
    simp only [pass2]
    split
    · exact marchEval_safe_one ctx hsafe _
    · cases n with
      | zero => exact marchEval_safe_one ctx hsafe _
      | succ m => exact ih _ (Nat.succ_pos m)

theorem marchResult_gluv_height_zero (p : SLParams) (dtex : ℚ → ℚ → ℚ)
    (screen : ℚ × ℚ) (hh : p.height = 0) :
    (marchResult p dtex screen).hitGluv =
      ((intersectOf p screen).x, (intersectOf p screen).y) := by
  have hsafe : (mkCtx p dtex screen).safe = 1 := by simp [mkCtx, hh]
  unfold marchResult
  exact pass2_gluv_of_safe_one _ hsafe 100 _ (by norm_num)

theorem intersect_screen (p : SLParams) (screen : ℚ × ℚ)
    (hh : p.height = 0) (ho : p.offset = (0, 0)) :
    intersectOf p screen = ⟨screen.1, screen.2, 1⟩ := by
  unfold intersectOf
  rw [hh, mul_zero, ho]
  rw [if_pos (by norm_num)]
  dsimp only
  rw [V3.mk.injEq]
  refine ⟨by ring, by ring, by ring⟩

/-- C7 (amended): for `height = 0` and `offset = (0, 0)`, every pixel whose
screen coordinate is within image bounds (or with mirroring enabled) renders
exactly the color sample at its own screen coordinate, for all remaining
camera parameters.  (With a nonzero offset the sampling coordinate is
`screen - offset` instead; see the counterexample.) -/
theorem height_zero_undisplaced (p : SLParams) (tex : ℚ → ℚ → V4)
    (dtex : ℚ → ℚ → ℚ) (screen : ℚ × ℚ) (hh : p.height = 0)
    (ho : p.offset = (0, 0))
    (hbounds : p.mirror = true ∨ (|screen.1 / p.aspect| ≤ 1 ∧ |screen.2| ≤ 1)) :
    mainShader p tex dtex screen = sampleTexture tex screen p.mirror p.aspect := by
  have hg : (marchResult p dtex screen).hitGluv = screen := by
    rw [marchResult_gluv_height_zero p dtex screen hh,
      intersect_screen p screen hh ho]
  unfold mainShader computeParallax
  simp only [hg]
  rcases hbounds with hm | ⟨h1, h2⟩
  · simp [hm]
  · simp [decide_eq_false (not_lt.2 h1), decide_eq_false (not_lt.2 h2)]

set_option maxRecDepth 100000 in
/-- C7 counterexample: with `height = 0` but `offset = (1/2, 0)`, the pixel
at screen coordinate `(0, 0)` does not render the color sample at its own
screen coordinate (the march lands at `screen - offset`), refuting the
claim's quantification over all camera offsets. -/
theorem height_zero_counterexample :
    mainShader cxSL exTex exDepth0 (0, 0) ≠
      sampleTexture exTex (0, 0) cxSL.mirror cxSL.aspect := by
  decide

/-- Witness for the amended C7 theorem at a concrete camera and pixel. -/
theorem height_zero_witness :
    mainShader exSLw exTex exDepth0 (1 / 3, 1 / 4) =
      sampleTexture exTex (1 / 3, 1 / 4) exSLw.mirror exSLw.aspect :=
  height_zero_undisplaced exSLw exTex exDepth0 (1 / 3, 1 / 4) rfl rfl
    (Or.inl rfl)

/-- C8: when mirroring is disabled and the final hit coordinate, divided
per-axis by `(aspect, 1)`, exceeds 1 in absolute value on either axis, the
pixel renders the black sentinel `(0,0,0,1)`; and whenever mirroring is on or
the hit stays within bounds, the pixel renders the normal texture sample, so
in-bounds hits are never painted with the sentinel path.  Both outcomes are
total function values: no error or exception exists in the model. -/
theorem out_of_bounds_sentinel (p : SLParams) (tex : ℚ → ℚ → V4)
    (dtex : ℚ → ℚ → ℚ) (screen : ℚ × ℚ) :
    (p.mirror = false →
      (1 < |(computeParallax p dtex screen).gluv.1 / p.aspect| ∨
        1 < |(computeParallax p dtex screen).gluv.2|) →
      mainShader p tex dtex screen = ⟨0, 0, 0, 1⟩) ∧
    ((p.mirror = true ∨
      (|(computeParallax p dtex screen).gluv.1 / p.aspect| ≤ 1 ∧
        |(computeParallax p dtex screen).gluv.2| ≤ 1)) →
      mainShader p tex dtex screen =
        sampleTexture tex (computeParallax p dtex screen).gluv p.mirror
          p.aspect) := by
  constructor
  · intro hm hb
    have hoob : (computeParallax p dtex screen).outOfBounds = true := by
      simp only [computeParallax] at hb ⊢
      rw [hm]
      rcases hb with h | h
      · simp [h]
      · simp [h]
    simp [mainShader, hoob]
  · intro hb
    have hoob : (computeParallax p dtex screen).outOfBounds = false := by
      simp only [computeParallax] at hb ⊢
      rcases hb with hm | ⟨h1, h2⟩
      · simp [hm]
      · simp [decide_eq_false (not_lt.2 h1), decide_eq_false (not_lt.2 h2)]
    simp [mainShader, hoob]

set_option maxRecDepth 100000 in
/-- Witness for C8 at two concrete inputs: an out-of-bounds hit with
mirroring off renders the sentinel, and a mirrored-on hit renders the texture
sample. -/
theorem out_of_bounds_sentinel_witness :
    mainShader exSLoob exWhite exDepth0 (5, 0) = ⟨0, 0, 0, 1⟩ ∧
    mainShader exSLw exWhite exDepth0 (0, 0) =
      sampleTexture exWhite (computeParallax exSLw exDepth0 (0, 0)).gluv
        exSLw.mirror exSLw.aspect :=
  ⟨(out_of_bounds_sentinel exSLoob exWhite exDepth0 (5, 0)).1 rfl (by decide),
   (out_of_bounds_sentinel exSLw exWhite exDepth0 (0, 0)).2 (Or.inl rfl)⟩

theorem rayMarch_isBackground (fns : GlslFns) (p : TLParams)
    (dtex : ℚ → ℚ → ℚ) (screen : ℚ × ℚ) :
    (rayMarch fns p dtex screen).isBackground =
      decide (p.steepnessLimit < (rayMarch fns p dtex screen).steep) := rfl

/-- C6 (amended): for every pixel whose foreground ray hit is valid, the
compositor behaves exactly as specified: with the layer-blend control
approximately 0 (`< 0.01`) the output is the foreground sample at the hit;
otherwise, exactly when the hit's steepness exceeds `steepnessLimit`, an
independent background ray march supplies the second sample and the output is
`mix(fg, bg, smoothstep(0, 1 + blendSoftness, overThreshold) * layerBlend)`
with `overThreshold = (steep - limit) / max(limit, 0.01)`; otherwise the
output is the pure foreground sample.  (An invalid hit renders the black
sentinel instead; see the counterexample.) -/
theorem compositor_blend_characterization (fns : GlslFns) (p : TLParams)
    (texFG texBG : ℚ → ℚ → V4) (dtexFG dtexBG : ℚ → ℚ → ℚ)
    (screen : ℚ × ℚ)
    (hv : (rayMarch fns p dtexFG screen).valid = true) :
    (p.layerBlend < 0.01 →
      compositorMain fns p texFG texBG dtexFG dtexBG screen =
        sampleTex texFG (rayMarch fns p dtexFG screen).uv p.mirror p.aspect) ∧
    (¬p.layerBlend < 0.01 →
      (p.steepnessLimit < (rayMarch fns p dtexFG screen).steep →
        compositorMain fns p texFG texBG dtexFG dtexBG screen =
          glslMix4
            (sampleTex texFG (rayMarch fns p dtexFG screen).uv p.mirror
              p.aspect)
            (sampleTex texBG (rayMarchBackground p dtexBG screen) p.mirror
              p.aspect)
            (glslSmoothstep 0 (1 + p.blendSoftness)
              (((rayMarch fns p dtexFG screen).steep - p.steepnessLimit) /
                max p.steepnessLimit 0.01) * p.layerBlend)) ∧
      (¬p.steepnessLimit < (rayMarch fns p dtexFG screen).steep →
        compositorMain fns p texFG texBG dtexFG dtexBG screen =
          sampleTex texFG (rayMarch fns p dtexFG screen).uv p.mirror
            p.aspect)) := by
  simp only [compositorMain, hv, Bool.not_true, Bool.false_eq_true, if_false]
  refine ⟨fun hb => by rw [if_pos hb], fun hb => ?_⟩
  rw [if_neg hb]
  constructor
  · intro hs
    rw [rayMarch_isBackground, if_pos (by simpa using hs)]
  · intro hs
    rw [rayMarch_isBackground, if_neg (by simpa using hs)]

set_option maxRecDepth 1000000 in
/-- C6 counterexample: with mirroring off and the hit out of bounds, the
compositor paints the black sentinel even though the layer-blend control is
0, so the output is not the foreground sample the claim asserts for every
pixel. -/
theorem compositor_invalid_counterexample :
    compositorMain exFns cxTL exWhite exWhite exDepth0 exDepth0 (5, 5) ≠
      sampleTex exWhite (rayMarch exFns cxTL exDepth0 (5, 5)).uv cxTL.mirror
        cxTL.aspect := by
  decide

/-- Witness for the amended C6 theorem: a valid hit with the layer-blend
control at 0 renders the foreground sample. -/
theorem compositor_blend_witness :
    compositorMain exFns exTLw exWhite exWhite exDepth0 exDepth0 (0, 0) =
      sampleTex exWhite (rayMarch exFns exTLw exDepth0 (0, 0)).uv exTLw.mirror
        exTLw.aspect :=
  (compositor_blend_characterization exFns exTLw exWhite exWhite exDepth0
    exDepth0 (0, 0) (by decide)).1 (by decide)

theorem reconstructList_width (l : PLevel) (L : List PLevel) :
    (reconstructList (l :: L)).width = l.width := by
  cases L <;> rfl

theorem reconstructList_height (l : PLevel) (L : List PLevel) :
    (reconstructList (l :: L)).height = l.height := by
  cases L <;> rfl

theorem reconstructList_valid (L : List PLevel) :
    ∀ (l : PLevel) (i : ℕ),
      (reconstructList (l :: L)).valid i = anyValidInChain (l :: L) i := by
  induction L with
  | nil => intro l i; rfl
  | cons c rest ih =>
    intro l i
    have hp : parentIdx l (reconstructList (c :: rest)) i = parentIdx l c i := by
      unfold parentIdx
      rw [reconstructList_width, reconstructList_height]
    simp only [reconstructList, pullCombine, anyValidInChain]
    rw [hp, ih]

theorem reconstructList_data (L : List PLevel) (l : PLevel) (i : ℕ)
    (hv : l.valid i = true) :
    (reconstructList (l :: L)).data i = l.data i := by
  cases L with
  | nil => rfl
  | cons c rest => simp [reconstructList, pullCombine, hv]

theorem smoothPass_unmasked (f : ℕ → ℚ) (mask : ℕ → Bool) (w h i : ℕ)
    (hm : mask i = false) : smoothPass f mask w h i = f i := by
  simp [smoothPass, hm]

/-- C1: push-pull synthesis guarantee.  For every depth grid and mask,
`inpaintBackground` (a) returns every unmasked pixel with exactly its
original depth value, through the pull phase and all three smoothing passes;
and (b) marks every pixel valid (a defined, non-sentinel value) in the pull
reconstruction whenever at least one cell of its pyramid ancestor chain is
valid. -/
theorem inpaint_push_pull_guarantee (depth : ℕ → ℚ) (mask : ℕ → Bool)
    (w h i : ℕ) :
    (mask i = false → inpaintBackground depth mask w h i = depth i) ∧
    (mask i = true →
      anyValidInChain (buildPyramid (initLevel depth mask w h)) i = true →
      (reconstructList (buildPyramid (initLevel depth mask w h))).valid i =
        true) := by
  constructor
  · intro hm
    unfold inpaintBackground reconstructFromPyramid smoothMaskedRegions
    rw [smoothPass_unmasked _ _ _ _ _ hm, smoothPass_unmasked _ _ _ _ _ hm,
      smoothPass_unmasked _ _ _ _ _ hm]
    unfold buildPyramid
    rw [reconstructList_data _ _ _ (by simp [initLevel, hm])]
    simp [initLevel, hm]
  · intro _ hany
    unfold buildPyramid at hany ⊢
    rw [reconstructList_valid]
    exact hany

/-- Witness for C1 on a concrete 2x2 grid with pixel 0 masked: the unmasked
pixel 1 keeps its depth, and masked pixel 0 (whose 1x1 ancestor is valid) is
marked valid by the pull phase. -/
theorem inpaint_witness :
    inpaintBackground exDepth exMask 2 2 1 = exDepth 1 ∧
    (reconstructList (buildPyramid (initLevel exDepth exMask 2 2))).valid 0 =
      true :=
  ⟨(inpaint_push_pull_guarantee exDepth exMask 2 2 1).1 (by decide),
   (inpaint_push_pull_guarantee exDepth exMask 2 2 0).2 (by decide) (by decide)⟩

theorem idx_mod (x y w : ℕ) (hx : x < w) : (y * w + x) % w = x := by
  rw [Nat.mul_comm y w, Nat.mul_add_mod, Nat.mod_eq_of_lt hx]

theorem idx_div (x y w : ℕ) (hx : x < w) : (y * w + x) / w = y := by
  rw [Nat.add_comm, Nat.add_mul_div_right _ _ (Nat.zero_lt_of_lt hx),
    Nat.div_eq_of_lt hx, Nat.zero_add]

theorem mem_kernelOffsets (radius : ℕ) (z : ℤ) :
    z ∈ kernelOffsets radius ↔ -(radius : ℤ) ≤ z ∧ z ≤ radius := by
  unfold kernelOffsets
  rw [List.mem_map]
  constructor
  · rintro ⟨n, hn, rfl⟩
    rw [List.mem_range] at hn
    omega
  · intro hz
    refine ⟨(z + radius).toNat, ?_, by omega⟩
    rw [List.mem_range]
    omega

theorem clampIdx_of_lt (a b : ℕ) (hab : a < b) :
    clampIdx (a : ℤ) ((b : ℤ) - 1) = (a : ℤ) := by
  unfold clampIdx
  omega

theorem sq_le_bounds (a r : ℤ) (hr : 0 ≤ r) (hle : a * a ≤ r * r) :
    -r ≤ a ∧ a ≤ r := by
  constructor <;> nlinarith [mul_self_nonneg (a - r), mul_self_nonneg (a + r)]

theorem createForegroundMask_eq (depth : ℕ → ℚ) (w h : ℕ) (threshold : ℚ)
    (x y : ℕ) (hx : x < w) (hy : y < h) :
    (createForegroundMask depth w h threshold (y * w + x) = true ↔
      threshold < depth (y * w + x) ∨
        (1 ≤ x ∧ x < w - 1 ∧ 1 ≤ y ∧ y < h - 1 ∧
          (0.15 : ℚ) ^ 2 <
            (|depth (y * w + x + 1) - depth (y * w + x - 1)| / 2) ^ 2 +
              (|depth (y * w + x + w) - depth (y * w + x - w)| / 2) ^ 2 ∧
          threshold * 0.7 < depth (y * w + x))) := by
  simp only [createForegroundMask, gradientForce, thresholdMask,
    idx_mod x y w hx, idx_div x y w hx]
  by_cases hint : 1 ≤ x ∧ x < w - 1 ∧ 1 ≤ y ∧ y < h - 1
  · rw [if_pos hint]
    by_cases hg :
        (0.15 : ℚ) ^ 2 <
            (|depth (y * w + x + 1) - depth (y * w + x - 1)| / 2) ^ 2 +
              (|depth (y * w + x + w) - depth (y * w + x - w)| / 2) ^ 2 ∧
          threshold * 0.7 < depth (y * w + x)
    · rw [if_pos hg]
      simp only [decide_eq_true_iff]
      tauto
    · rw [if_neg hg]
      simp only [decide_eq_true_iff]
      tauto
  · rw [if_neg hint]
    simp only [decide_eq_true_iff]
    tauto

theorem dilateMask_eq (m : ℕ → Bool) (w h : ℕ) (radius : ℕ) (x y : ℕ)
    (hx : x < w) (hy : y < h) :
    (dilateMask m w h radius (y * w + x) = true ↔
      ∃ kx ky : ℤ, kx * kx + ky * ky ≤ (radius : ℤ) * radius ∧
        m ((clampIdx ((y : ℤ) + ky) ((h : ℤ) - 1)).toNat * w +
            (clampIdx ((x : ℤ) + kx) ((w : ℤ) - 1)).toNat) = true) := by
  by_cases hr : radius = 0
  · subst hr
    simp only [dilateMask, if_pos rfl]
    constructor
    · intro hm
      refine ⟨0, 0, by simp, ?_⟩
      rw [add_zero, add_zero, clampIdx_of_lt x w hx, clampIdx_of_lt y h hy]
      simpa using hm
    · rintro ⟨kx, ky, hle, hm⟩
      have h0 : kx * kx + ky * ky ≤ 0 := by exact_mod_cast hle
      have hkx : kx = 0 := mul_self_eq_zero.1
        (le_antisymm (by nlinarith [mul_self_nonneg ky]) (mul_self_nonneg kx))
      have hky : ky = 0 := mul_self_eq_zero.1
        (le_antisymm (by nlinarith [mul_self_nonneg kx]) (mul_self_nonneg ky))
      subst hkx; subst hky
      rw [add_zero, add_zero, clampIdx_of_lt x w hx, clampIdx_of_lt y h hy] at hm
      simpa using hm
  · rw [dilateMask, if_neg hr]
    simp only [idx_mod x y w hx, idx_div x y w hx, List.any_eq_true,
      Bool.and_eq_true, decide_eq_true_iff]
    constructor
    · rintro ⟨ky, _, kx, _, hle, hm⟩
      exact ⟨kx, ky, hle, hm⟩
    · rintro ⟨kx, ky, hle, hm⟩
      have hxb := sq_le_bounds kx radius (Int.natCast_nonneg radius)
        (by nlinarith [mul_self_nonneg ky])
      have hyb := sq_le_bounds ky radius (Int.natCast_nonneg radius)
        (by nlinarith [mul_self_nonneg kx])
      exact ⟨ky, (mem_kernelOffsets radius ky).2 ⟨hyb.1, hyb.2⟩,
        kx, (mem_kernelOffsets radius kx).2 ⟨hxb.1, hxb.2⟩, hle, hm⟩

/-- C5: the foreground mask extractor computes exactly the specified
algorithm.  For every pixel `(x, y)` of the grid: the mask after the
threshold and gradient passes is set iff `depth > foregroundThreshold`, or
the pixel is interior with centered-difference gradient magnitude above the
gradient threshold (0.15 in the source; compared via squares, which is exact
for these nonnegative quantities) and `depth > 0.7 * foregroundThreshold`;
and the dilated mask is set iff some pixel within Euclidean distance
`radius` (sample coordinates clamped to the image bounds) is set. -/
theorem foreground_mask_characterization (depth : ℕ → ℚ) (w h : ℕ)
    (threshold : ℚ) (radius : ℕ) (x y : ℕ) (hx : x < w) (hy : y < h) :
    (createForegroundMask depth w h threshold (y * w + x) = true ↔
      threshold < depth (y * w + x) ∨
        (1 ≤ x ∧ x < w - 1 ∧ 1 ≤ y ∧ y < h - 1 ∧
          (0.15 : ℚ) ^ 2 <
            (|depth (y * w + x + 1) - depth (y * w + x - 1)| / 2) ^ 2 +
              (|depth (y * w + x + w) - depth (y * w + x - w)| / 2) ^ 2 ∧
          threshold * 0.7 < depth (y * w + x))) ∧
    (dilateMask (createForegroundMask depth w h threshold) w h radius
        (y * w + x) = true ↔
      ∃ kx ky : ℤ, kx * kx + ky * ky ≤ (radius : ℤ) * radius ∧
        createForegroundMask depth w h threshold
          ((clampIdx ((y : ℤ) + ky) ((h : ℤ) - 1)).toNat * w +
            (clampIdx ((x : ℤ) + kx) ((w : ℤ) - 1)).toNat) = true) :=
  ⟨createForegroundMask_eq depth w h threshold x y hx hy,
   dilateMask_eq (createForegroundMask depth w h threshold) w h radius x y
     hx hy⟩

/-- Witness for C5 on a concrete 3x3 grid with a step in the last column. -/
theorem foreground_mask_witness :
    (createForegroundMask exDepth3 3 3 (2 / 5) (1 * 3 + 1) = true ↔
      2 / 5 < exDepth3 (1 * 3 + 1) ∨
        (1 ≤ 1 ∧ 1 < 3 - 1 ∧ 1 ≤ 1 ∧ 1 < 3 - 1 ∧
          (0.15 : ℚ) ^ 2 <
            (|exDepth3 (1 * 3 + 1 + 1) - exDepth3 (1 * 3 + 1 - 1)| / 2) ^ 2 +
              (|exDepth3 (1 * 3 + 1 + 3) - exDepth3 (1 * 3 + 1 - 3)| / 2) ^ 2 ∧
          2 / 5 * 0.7 < exDepth3 (1 * 3 + 1))) ∧
    (dilateMask (createForegroundMask exDepth3 3 3 (2 / 5)) 3 3 1
        (1 * 3 + 1) = true ↔
      ∃ kx ky : ℤ, kx * kx + ky * ky ≤ ((1 : ℕ) : ℤ) * 1 ∧
        createForegroundMask exDepth3 3 3 (2 / 5)
          ((clampIdx ((1 : ℤ) + ky) ((3 : ℤ) - 1)).toNat * 3 +
            (clampIdx ((1 : ℤ) + kx) ((3 : ℤ) - 1)).toNat) = true) := by
  exact foreground_mask_characterization exDepth3 3 3 (2 / 5) 1 1 1
    (by decide) (by decide)

theorem foldl_max_eq (l : List ℕ) : ∀ i, l.foldl max i = max i (l.foldl max 0) := by
  induction l with
  | nil => intro i; simp
  | cons a l ih =>
    intro i
    simp only [List.foldl_cons]
    rw [ih (max i a), ih (max 0 a), Nat.zero_max, Nat.max_assoc]

theorem natMaxList_cons (a : ℕ) (l : List ℕ) :
    natMaxList (a :: l) = max a (natMaxList l) := by
  unfold natMaxList
  simp only [List.foldl_cons]
  rw [foldl_max_eq, Nat.zero_max]

theorem natMaxList_append (l₁ l₂ : List ℕ) :
    natMaxList (l₁ ++ l₂) = max (natMaxList l₁) (natMaxList l₂) := by
  unfold natMaxList
  rw [List.foldl_append, foldl_max_eq]

theorem natMaxList_bind {β : Type} (l : List β) (f : β → List ℕ) :
    natMaxList (l.map fun b => natMaxList (f b)) = natMaxList (l.flatMap f) := by
  induction l with
  | nil => rfl
  | cons a l ih =>
    rw [List.map_cons, natMaxList_cons, List.flatMap_cons, natMaxList_append, ih]

theorem vert_horiz_eq_square (src : ℕ → ℕ) (w h radius x y : ℕ)
    (hx : x < w) :
    vertMaxPass (horizMaxPass src w radius) w h radius (y * w + x) =
      squareWindowMax src w h radius x y := by
  simp only [vertMaxPass, squareWindowMax]
  rw [idx_mod x y w hx, idx_div x y w hx, ← natMaxList_bind]
  congr 1
  refine List.map_congr_left fun ky _ => ?_
  simp only [horizMaxPass]
  rw [idx_mod x ky w hx, idx_div x ky w hx]

/-- C10: with `edgeFix > 0`, `applyEdgeFix` computes at every pixel the
maximum of the original depth channel over the axis-aligned square window of
half-width `ceil(edgeFix * 10)` clamped to the image bounds — its horizontal
max pass followed by its vertical max pass equals the direct 2D square-window
maximum — and with `edgeFix ≤ 0` the original depth data is uploaded
unchanged. -/
theorem edge_fix_separable_max (src : ℕ → ℕ) (w h : ℕ) (edgeFix : ℚ)
    (x y : ℕ) (hx : x < w) (hy : y < h) :
    (edgeFix ≤ 0 →
      applyEdgeFix edgeFix src w h (y * w + x) = src (y * w + x)) ∧
    (0 < edgeFix →
      applyEdgeFix edgeFix src w h (y * w + x) =
        squareWindowMax src w h (⌈edgeFix * 10⌉.toNat) x y) := by
  constructor
  · intro hle
    unfold applyEdgeFix
    rw [if_pos hle]
  · intro hlt
    unfold applyEdgeFix
    rw [if_neg (not_le.2 hlt)]
    exact vert_horiz_eq_square src w h _ x y hx

/-- Witness for C10 at concrete inputs: a nonpositive `edgeFix` leaves the
pixel unchanged, and `edgeFix = 1/10` (radius 1) produces the 2D window
maximum. -/
theorem edge_fix_witness :
    applyEdgeFix (-1) exSrc 2 2 (0 * 2 + 0) = exSrc (0 * 2 + 0) ∧
    applyEdgeFix (1 / 10) exSrc 2 2 (1 * 2 + 0) =
      squareWindowMax exSrc 2 2 (⌈(1 / 10 : ℚ) * 10⌉.toNat) 0 1 :=
  ⟨(edge_fix_separable_max exSrc 2 2 (-1) 0 0 (by decide) (by decide)).1
      (by decide),
   (edge_fix_separable_max exSrc 2 2 (1 / 10) 0 1 (by decide) (by decide)).2
      (by decide)⟩

theorem downsample_max_lt (l : PLevel)
    (hg : ¬(l.width ≤ 1 ∧ l.height ≤ 1)) :
    max (downsample l).width (downsample l).height <
      max l.width l.height := by
  simp only [downsample]
  omega

/-- Adequacy of the fuel in `buildPyramid`: the fuelled push loop always
reaches the source loop's natural exit, ending at a level with both
dimensions at most 1 (the fuel never cuts the loop short). -/
theorem pyramid_reaches_base :
    ∀ (fuel : ℕ) (l : PLevel), max l.width l.height ≤ fuel →
      ∃ d : PLevel, (l :: pyramidRest fuel l).getLast? = some d ∧
        d.width ≤ 1 ∧ d.height ≤ 1 := by
  intro fuel
  induction fuel with
  | zero =>
    intro l hl
    exact ⟨l, by simp [pyramidRest], by omega, by omega⟩
  | succ n ih =>
    intro l hl
    by_cases hg : l.width ≤ 1 ∧ l.height ≤ 1
    · exact ⟨l, by simp [pyramidRest, hg], hg.1, hg.2⟩
    · have hd := downsample_max_lt l hg
      obtain ⟨d, hd1, hd2, hd3⟩ := ih (downsample l) (by omega)
      refine ⟨d, ?_, hd2, hd3⟩
      rw [pyramidRest, if_neg hg]
      rw [List.getLast?_cons_cons]
      exact hd1
